/-
Verification development for the newgatejs HTTP framework core:
route matching, middleware chain execution, content-type dispatch,
logger level filtering and CLI project scaffolding.
-/
import Mathlib

namespace Newgate

/-- HTTP methods supported by route registration. -/
inductive Method
| GET | POST | PUT | DELETE | PATCH
deriving DecidableEq, Repr

/-- Modelled from the spec: a compiled path-pattern segment (src/core/router.js
is absent from the repository snapshot). A segment is a literal, a named
parameter (`:name`), or a trailing wildcard (`*`). -/
inductive Seg
| static (s : String)
| param (s : String)
| wildcard
deriving DecidableEq, Repr

/-- Split a character list on `/`, accumulating the current segment in
reverse. Mirrors JavaScript `String.prototype.split("/")`: the empty string
splits to `[""]`, and a leading `/` yields a leading empty segment. -/
def splitSlashAux : List Char → List Char → List String
| [], acc => [String.mk acc.reverse]
| c :: cs, acc =>
  if c = '/' then String.mk acc.reverse :: splitSlashAux cs []
  else splitSlashAux cs (c :: acc)

/-- Split a path or pattern string on `/`. -/
def splitSlash (s : String) : List String :=
  splitSlashAux s.toList []

/-- Join path segments with `/` (inverse of `splitSlash` on its image);
used for the remainder captured by a trailing wildcard. -/
def joinSlash : List String → String
| [] => ""
| [s] => s
| s :: rest => s ++ "/" ++ joinSlash rest

/-- Classify one pattern segment: a leading `:` makes a named parameter,
anything else (the `*` case is handled by the compiler) is a literal. -/
def classifySeg (s : String) : Seg :=
  match s.toList with
  | ':' :: rest => Seg.param (String.mk rest)
  | _ => Seg.static s

/-- Modelled from the spec: compile a list of pattern segments; a `*` segment
anywhere but last is an `InvalidPattern` registration error (`none`). -/
def compileSegs : List String → Option (List Seg)
| [] => some []
| s :: rest =>
  if s = "*" then
    if rest = [] then some [Seg.wildcard] else Option.none
  else
    (compileSegs rest).map (classifySeg s :: ·)

/-- Modelled from the spec: a pattern is split on `/` and compiled segmentwise. -/
def compilePattern (p : String) : Option (List Seg) :=
  compileSegs (splitSlash p)

/-- Modelled from the spec: anchored structural matching of compiled segments
against path segments. A param captures exactly one non-empty segment; a
trailing wildcard captures the remainder (may be empty, may contain `/`). -/
def matchSegs : List Seg → List String → Option (List (String × String))
| [], [] => some []
| [Seg.wildcard], rest => some [("*", joinSlash rest)]
| Seg.static s :: ps, t :: ts => if t = s then matchSegs ps ts else Option.none
| Seg.param n :: ps, t :: ts =>
    if t = "" then Option.none else (matchSegs ps ts).map ((n, t) :: ·)
| _, _ => Option.none

/-- Modelled from the spec: a registered route (method, compiled pattern,
handler chain identified by an id). -/
structure Route where
  method : Method
  segs : List Seg
  hid : Nat
deriving DecidableEq, Repr

/-- Structural match of a route pattern against a request path. -/
def structMatch (r : Route) (p : String) : Option (List (String × String)) :=
  matchSegs r.segs (splitSlash p)

/-- Structural match plus method match. -/
def fullMatch (r : Route) (m : Method) (p : String) : Option (List (String × String)) :=
  if r.method = m then structMatch r p else Option.none

/-- Outcome of route resolution: first full match (with its registration
index and captured params), method-not-allowed (405), or not-found (404). -/
inductive MatchOutcome
| found (idx : Nat) (params : List (String × String))
| methodNotAllowed
| notFound
deriving DecidableEq, Repr

/-- Modelled from the spec: scan registered routes in registration order;
return the first structural + method match; remember whether some route
matched structurally under a different method (405 vs 404 distinction). -/
def resolveAux (m : Method) (p : String) : List Route → Nat → Bool → MatchOutcome
| [], _, saw => if saw then MatchOutcome.methodNotAllowed else MatchOutcome.notFound
| r :: rs, i, saw =>
  match structMatch r p with
  | some ps => if r.method = m then MatchOutcome.found i ps else resolveAux m p rs (i + 1) true
  | Option.none => resolveAux m p rs (i + 1) saw

/-- Modelled from the spec: route resolution entry point. -/
def resolve (routes : List Route) (m : Method) (p : String) : MatchOutcome :=
  resolveAux m p routes 0 false

/-- Helper to build a demo route from a pattern (patterns used in demos
compile successfully). -/
def mkRoute (m : Method) (p : String) (hid : Nat) : Route :=
  ⟨m, (compilePattern p).getD [], hid⟩

/-- A full match determines a method match and a structural match. -/
theorem structMatch_of_fullMatch {r : Route} {m : Method} {p : String}
    {ps : List (String × String)} (h : fullMatch r m p = some ps) :
    r.method = m ∧ structMatch r p = some ps := by
  unfold fullMatch at h
  by_cases hm : r.method = m
  · rw [if_pos hm] at h; exact ⟨hm, h⟩
  · rw [if_neg hm] at h; cases h

/-- With no structural match there is no full match. -/
theorem fullMatch_of_structMatch_none {r : Route} {p : String} (m : Method)
    (h : structMatch r p = Option.none) : fullMatch r m p = Option.none := by
  unfold fullMatch
  by_cases hm : r.method = m
  · rw [if_pos hm]; exact h
  · rw [if_neg hm]

/-- With a method mismatch there is no full match. -/
theorem fullMatch_of_method_ne {r : Route} {m : Method} (p : String)
    (h : ¬ r.method = m) : fullMatch r m p = Option.none := by
  unfold fullMatch; rw [if_neg h]

/-- Scan step: the head route fully matches, so it is returned at its index. -/
theorem resolveAux_cons_full {m : Method} {p : String} {r : Route}
    {ps : List (String × String)} (rs : List Route) (i : Nat) (saw : Bool)
    (h : fullMatch r m p = some ps) :
    resolveAux m p (r :: rs) i saw = MatchOutcome.found i ps := by
  obtain ⟨hm, hs⟩ := structMatch_of_fullMatch h
  simp [resolveAux, hs, hm]

/-- Scan step: the head route matches structurally but not by method; the
scan continues with the 405 flag set. -/
theorem resolveAux_cons_struct_only {m : Method} {p : String} {r : Route}
    {ps : List (String × String)} (rs : List Route) (i : Nat) (saw : Bool)
    (hs : structMatch r p = some ps) (hm : ¬ r.method = m) :
    resolveAux m p (r :: rs) i saw = resolveAux m p rs (i + 1) true := by
  simp [resolveAux, hs, hm]

/-- Scan step: the head route does not match structurally; the scan skips it. -/
theorem resolveAux_cons_none {m : Method} {p : String} {r : Route}
    (rs : List Route) (i : Nat) (saw : Bool)
    (hs : structMatch r p = Option.none) :
    resolveAux m p (r :: rs) i saw = resolveAux m p rs (i + 1) saw := by
  simp [resolveAux, hs]

/-- Characterization of a successful scan: `resolveAux` returns index `j`
with params `ps` iff the route at offset `j - i` is the first (relative to
the remaining list) whose pattern and method both match. -/
theorem resolveAux_found_iff (m : Method) (p : String) :
    ∀ (rs : List Route) (i : Nat) (saw : Bool) (j : Nat)
      (ps : List (String × String)),
    resolveAux m p rs i saw = MatchOutcome.found j ps ↔
      ∃ k r, rs.get? k = some r ∧ j = i + k ∧ fullMatch r m p = some ps ∧
        ∀ l r', l < k → rs.get? l = some r' →
          fullMatch r' m p = Option.none := by
  intro rs
  induction rs with
  | nil =>
    intro i saw j ps
    constructor
    · intro h; cases saw <;> simp [resolveAux] at h
    · rintro ⟨k, r, hk, -⟩; simp at hk
  | cons r rs ih =>
    intro i saw j ps
    cases hsm : structMatch r p with
    | some ps' =>
      by_cases hm : r.method = m
      · have hfull : fullMatch r m p = some ps' := by
          unfold fullMatch; rw [if_pos hm]; exact hsm
        rw [resolveAux_cons_full rs i saw hfull]
        constructor
        · intro h
          injection h with h1 h2
          subst h1; subst h2
          exact ⟨0, r, rfl, by omega, hfull, by intro l r' hl; omega⟩
        · rintro ⟨k, r', hk, hj, hf, hearlier⟩
          cases k with
          | zero =>
            injection hk with hk; subst hk
            rw [hfull] at hf
            injection hf with hf; subst hf
            rw [hj, Nat.add_zero]
          | succ k' =>
            have h0 := hearlier 0 r (Nat.succ_pos k') rfl
            rw [hfull] at h0; cases h0
      · rw [resolveAux_cons_struct_only rs i saw hsm hm]
        constructor
        · intro h
          rcases (ih (i + 1) true j ps).mp h with ⟨k, r', hk, hj, hf, hearlier⟩
          refine ⟨k + 1, r', by simpa using hk, by omega, hf, ?_⟩
          intro l r'' hl hr''
          cases l with
          | zero =>
            injection hr'' with hr''; subst hr''
            exact fullMatch_of_method_ne p hm
          | succ l' =>
            exact hearlier l' r'' (by omega) (by simpa using hr'')
        · rintro ⟨k, r', hk, hj, hf, hearlier⟩
          cases k with
          | zero =>
            injection hk with hk; subst hk
            rw [fullMatch_of_method_ne p hm] at hf; cases hf
          | succ k' =>
            refine (ih (i + 1) true j ps).mpr
              ⟨k', r', by simpa using hk, by omega, hf, ?_⟩
            intro l r'' hl hr''
            exact hearlier (l + 1) r'' (by omega) (by simpa using hr'')
    | none =>
      have hfnone : fullMatch r m p = Option.none :=
        fullMatch_of_structMatch_none m hsm
      rw [resolveAux_cons_none rs i saw hsm]
      constructor
      · intro h
        rcases (ih (i + 1) saw j ps).mp h with ⟨k, r', hk, hj, hf, hearlier⟩
        refine ⟨k + 1, r', by simpa using hk, by omega, hf, ?_⟩
        intro l r'' hl hr''
        cases l with
        | zero =>
          injection hr'' with hr''; subst hr''; exact hfnone
        | succ l' =>
          exact hearlier l' r'' (by omega) (by simpa using hr'')
      · rintro ⟨k, r', hk, hj, hf, hearlier⟩
        cases k with
        | zero =>
          injection hk with hk; subst hk
          rw [hfnone] at hf; cases hf
        | succ k' =>
          refine (ih (i + 1) saw j ps).mpr
            ⟨k', r', by simpa using hk, by omega, hf, ?_⟩
          intro l r'' hl hr''
          exact hearlier (l + 1) r'' (by omega) (by simpa using hr'')

/-- Characterization of the method-not-allowed outcome of a scan: no route
fully matches, and either the 405 flag was already set or some remaining
route matches structurally. -/
theorem resolveAux_mna_iff (m : Method) (p : String) :
    ∀ (rs : List Route) (i : Nat) (saw : Bool),
    resolveAux m p rs i saw = MatchOutcome.methodNotAllowed ↔
      (∀ r ∈ rs, fullMatch r m p = Option.none) ∧
        (saw = true ∨ ∃ r ∈ rs, ¬ structMatch r p = Option.none) := by
  intro rs
  induction rs with
  | nil => intro i saw; cases saw <;> simp [resolveAux]
  | cons r rs ih =>
    intro i saw
    cases hsm : structMatch r p with
    | some ps' =>
      by_cases hm : r.method = m
      · have hfull : fullMatch r m p = some ps' := by
          unfold fullMatch; rw [if_pos hm]; exact hsm
        rw [resolveAux_cons_full rs i saw hfull]
        simp [hfull]
      · rw [resolveAux_cons_struct_only rs i saw hsm hm, ih (i + 1) true]
        simp [fullMatch_of_method_ne p hm, hsm]
    | none =>
      have hfnone := fullMatch_of_structMatch_none m hsm
      rw [resolveAux_cons_none rs i saw hsm, ih (i + 1) saw]
      simp [hfnone, hsm]

/-- Characterization of the not-found outcome of a scan: the 405 flag is
unset and no remaining route matches even structurally. -/
theorem resolveAux_nf_iff (m : Method) (p : String) :
    ∀ (rs : List Route) (i : Nat) (saw : Bool),
    resolveAux m p rs i saw = MatchOutcome.notFound ↔
      saw = false ∧ ∀ r ∈ rs, structMatch r p = Option.none := by
  intro rs
  induction rs with
  | nil => intro i saw; cases saw <;> simp [resolveAux]
  | cons r rs ih =>
    intro i saw
    cases hsm : structMatch r p with
    | some ps' =>
      by_cases hm : r.method = m
      · have hfull : fullMatch r m p = some ps' := by
          unfold fullMatch; rw [if_pos hm]; exact hsm
        rw [resolveAux_cons_full rs i saw hfull]
        simp [hsm]
      · rw [resolveAux_cons_struct_only rs i saw hsm hm, ih (i + 1) true]
        simp [hsm]
    | none =>
      rw [resolveAux_cons_none rs i saw hsm, ih (i + 1) saw]
      simp [hsm]

/-- C1: route resolution scans registered routes in registration order and
returns the first route whose pattern structurally matches the path and
whose method matches, with its captured params; in particular GET
`/files/special` registered before GET `/files/*` resolves `/files/special`
to the static route, and with only the wildcard route registered,
`/files/anything/else` resolves to it with captured remainder
`anything/else`. -/
theorem route_resolution_first_match_spec :
    (∀ (routes : List Route) (m : Method) (p : String) (j : Nat)
       (ps : List (String × String)),
      resolve routes m p = MatchOutcome.found j ps ↔
        ∃ r, routes.get? j = some r ∧ fullMatch r m p = some ps ∧
          ∀ l r', l < j → routes.get? l = some r' →
            fullMatch r' m p = Option.none) ∧
    resolve [mkRoute Method.GET "/files/special" 0, mkRoute Method.GET "/files/*" 1]
      Method.GET "/files/special" = MatchOutcome.found 0 [] ∧
    resolve [mkRoute Method.GET "/files/*" 1] Method.GET "/files/anything/else"
      = MatchOutcome.found 0 [("*", "anything/else")] := by
  refine ⟨?_, by decide, by decide⟩
  intro routes m p j ps
  unfold resolve
  rw [resolveAux_found_iff]
  constructor
  · rintro ⟨k, r, hk, hj, hf, he⟩
    subst hj
    refine ⟨r, by simpa using hk, hf, ?_⟩
    intro l r' hl hr'
    exact he l r' (by omega) hr'
  · rintro ⟨r, hj', hf, he⟩
    exact ⟨j, r, hj', by omega, hf, fun l r' hl hr' => he l r' hl hr'⟩

/-- C7: when no route fully matches, resolution reports method-not-allowed
(405) exactly when some registered route matches the path structurally
(necessarily under a different method), and not-found (404) exactly when no
route matches the path structurally at all. -/
theorem method_not_allowed_distinction_spec :
    ∀ (routes : List Route) (m : Method) (p : String),
    (resolve routes m p = MatchOutcome.methodNotAllowed ↔
      (∀ r ∈ routes, fullMatch r m p = Option.none) ∧
        ∃ r ∈ routes, ¬ structMatch r p = Option.none) ∧
    (resolve routes m p = MatchOutcome.notFound ↔
      ∀ r ∈ routes, structMatch r p = Option.none) := by
  intro routes m p
  unfold resolve
  constructor
  · rw [resolveAux_mna_iff]; simp
  · rw [resolveAux_nf_iff]; simp

/-- Concrete instance of `method_not_allowed_distinction_spec`: a POST to a
path registered only under GET reports 405, and a request for an
unregistered path reports 404. -/
theorem method_not_allowed_distinction_spec_witness :
    resolve [mkRoute Method.GET "/users/:id" 0] Method.POST "/users/42"
      = MatchOutcome.methodNotAllowed ∧
    resolve [mkRoute Method.GET "/users/:id" 0] Method.POST "/nope"
      = MatchOutcome.notFound := by
  constructor
  · exact (method_not_allowed_distinction_spec
      [mkRoute Method.GET "/users/:id" 0] Method.POST "/users/42").1.mpr
      (by decide)
  · exact (method_not_allowed_distinction_spec
      [mkRoute Method.GET "/users/:id" 0] Method.POST "/nope").2.mpr
      (by decide)

/-- Concrete instance of `route_resolution_first_match_spec`: the first
route of the demo table is the resolved one. -/
theorem route_resolution_first_match_spec_witness :
    resolve [mkRoute Method.GET "/files/special" 0, mkRoute Method.GET "/files/*" 1]
      Method.GET "/files/special" = MatchOutcome.found 0 [] :=
  route_resolution_first_match_spec.2.1

/-- Modelled from the spec: registration-time errors. `invalidPattern` for a
malformed pattern (wildcard not in final position), `routerSealed` for a
registration attempted after the server began accepting connections. -/
inductive RegistrationError
| invalidPattern
| routerSealed
deriving DecidableEq, Repr

/-- Modelled from the spec: the Router owns the ordered route list and a
seal flag set when the server begins accepting connections. -/
structure RouterState where
  routes : List Route
  isSealed : Bool
deriving DecidableEq, Repr

/-- Modelled from the spec: route registration. After the sealing point it
fails with `RouterSealed` and leaves the route table unchanged; before it,
a well-formed pattern is compiled and appended in registration order. -/
def register (st : RouterState) (m : Method) (pat : String) (hid : Nat) :
    RouterState × Option RegistrationError :=
  if st.isSealed then (st, some RegistrationError.routerSealed)
  else
    match compilePattern pat with
    | Option.none => (st, some RegistrationError.invalidPattern)
    | some segs => (⟨st.routes ++ [⟨m, segs, hid⟩], st.isSealed⟩, Option.none)

/-- Modelled from the spec: the sealing point — the server begins accepting
connections and the route table becomes immutable. -/
def sealRouter (st : RouterState) : RouterState :=
  ⟨st.routes, true⟩

/-- C8: registering a route after the server has begun accepting
connections fails with `RouterSealed` and leaves the route table unchanged;
before the sealing point, registration of a well-formed pattern succeeds
and appends the compiled route. -/
theorem router_sealed_spec (st : RouterState) (m : Method) (pat : String)
    (hid : Nat) :
    (st.isSealed = true →
      register st m pat hid = (st, some RegistrationError.routerSealed)) ∧
    (st.isSealed = false → ∀ segs, compilePattern pat = some segs →
      register st m pat hid =
        (⟨st.routes ++ [⟨m, segs, hid⟩], false⟩, Option.none)) := by
  constructor
  · intro hs
    unfold register
    rw [hs]
    simp
  · intro hs segs hc
    unfold register
    rw [hs, hc]
    simp

/-- Concrete instance of `router_sealed_spec`: after sealing, registering
GET `/users/:id` fails with `RouterSealed` and the table is unchanged;
before sealing the same registration succeeds. -/
theorem router_sealed_spec_witness :
    register (sealRouter ⟨[], false⟩) Method.GET "/users/:id" 0
      = (sealRouter ⟨[], false⟩, some RegistrationError.routerSealed) ∧
    register ⟨[], false⟩ Method.GET "/users/:id" 0
      = (⟨[⟨Method.GET, [Seg.static "", Seg.static "users", Seg.param "id"], 0⟩],
           false⟩, Option.none) := by
  constructor
  · exact (router_sealed_spec (sealRouter ⟨[], false⟩) Method.GET "/users/:id" 0).1
      (by decide)
  · exact (router_sealed_spec ⟨[], false⟩ Method.GET "/users/:id" 0).2
      (by decide) [Seg.static "", Seg.static "users", Seg.param "id"] (by decide)

/-- Body format tags produced by the content dispatcher (`req.bodyType` in
index.d.ts: json | csv | xml | yaml | formdata | binary | null). `noBody`
models the null / "none" tag for an absent body. -/
inductive BodyFormat
| json | csv | xml | yaml | formdata | binary | noBody
deriving DecidableEq, Repr

/-- Modelled from the spec: the static media-type table of the parser
dispatcher (src/parsers/index.js is absent from the repository snapshot). -/
def formatTable : List (String × BodyFormat) :=
  [("application/json", BodyFormat.json),
   ("text/csv", BodyFormat.csv),
   ("application/csv", BodyFormat.csv),
   ("application/xml", BodyFormat.xml),
   ("text/xml", BodyFormat.xml),
   ("application/x-yaml", BodyFormat.yaml),
   ("text/yaml", BodyFormat.yaml),
   ("multipart/form-data", BodyFormat.formdata)]

/-- Modelled from the spec: format selection by exact media-type match
against the static table; any other content type yields `binary` when a
body is present and the none tag when the body is absent. -/
def selectFormat (ct : String) (hasBody : Bool) : BodyFormat :=
  match formatTable.lookup ct with
  | some f => f
  | Option.none => if hasBody then BodyFormat.binary else BodyFormat.noBody

/-- C2: the content dispatcher selects the body format by exact media-type
match against the static table (json, csv, xml, yaml, formdata rows as
listed); any content type outside the table yields `binary` when a body is
present and the none tag when the body is absent. -/
theorem content_dispatch_table_spec : ∀ (b : Bool) (ct : String),
    selectFormat "application/json" b = BodyFormat.json ∧
    selectFormat "text/csv" b = BodyFormat.csv ∧
    selectFormat "application/csv" b = BodyFormat.csv ∧
    selectFormat "application/xml" b = BodyFormat.xml ∧
    selectFormat "text/xml" b = BodyFormat.xml ∧
    selectFormat "application/x-yaml" b = BodyFormat.yaml ∧
    selectFormat "text/yaml" b = BodyFormat.yaml ∧
    selectFormat "multipart/form-data" b = BodyFormat.formdata ∧
    (formatTable.lookup ct = Option.none →
      selectFormat ct true = BodyFormat.binary ∧
      selectFormat ct false = BodyFormat.noBody) := by
  intro b ct
  refine ⟨rfl, rfl, rfl, rfl, rfl, rfl, rfl, rfl, ?_⟩
  intro h
  constructor <;> (unfold selectFormat; rw [h]; simp)

/-- Concrete instance of `content_dispatch_table_spec`: `text/plain` is not
in the table, so a present body is tagged `binary` and an absent body gets
the none tag. -/
theorem content_dispatch_table_spec_witness :
    selectFormat "application/json" true = BodyFormat.json ∧
    selectFormat "text/plain" true = BodyFormat.binary ∧
    selectFormat "text/plain" false = BodyFormat.noBody := by
  refine ⟨(content_dispatch_table_spec true "text/plain").1, ?_, ?_⟩
  · exact ((content_dispatch_table_spec true "text/plain").2.2.2.2.2.2.2.2
      (by decide)).1
  · exact ((content_dispatch_table_spec true "text/plain").2.2.2.2.2.2.2.2
      (by decide)).2

/-- Decode error shape normalized by the dispatcher:
{kind, message omitted, statusCode}. -/
structure DecodeError where
  kind : String
  statusCode : Nat
deriving DecidableEq, Repr

/-- XML parser options (index.d.ts `XMLParserOptions`): `safeMode` defaults
to true (external entities disabled), `strict` defaults to true. -/
structure XMLParserOptions where
  safeMode : Bool := true
  strict : Bool := true
deriving DecidableEq, Repr

/-- Result of a successful markup decode: the raw document plus whether
external entities were resolved while decoding. -/
structure XMLDoc where
  raw : String
  externalResolved : Bool
deriving DecidableEq, Repr

/-- Substring search over character lists: does `pat` occur contiguously in
the list? Structural and kernel-reducible. -/
def containsSub (pat : List Char) : List Char → Bool
| [] => decide (pat = [])
| c :: cs => pat.isPrefixOf (c :: cs) || containsSub pat cs

/-- Substring occurrence on strings. -/
def occursIn (pat s : String) : Bool :=
  containsSub pat.toList s.toList

/-- Modelled from the spec: detection of an external entity or external
DOCTYPE declaration in a markup body (an `<!ENTITY` or `<!DOCTYPE`
declaration referring to a `SYSTEM` or `PUBLIC` identifier). The real
decoder grammar is an external collaborator; only the safety gate is
modelled. -/
def declaresExternalEntity (s : String) : Bool :=
  (occursIn "<!ENTITY" s || occursIn "<!DOCTYPE" s) &&
    (occursIn "SYSTEM" s || occursIn "PUBLIC" s)

/-- Modelled from the spec: the markup (xml) decoder safety gate
(src/parsers/xml.js is absent from the repository snapshot). With
`safeMode` on (the default), a body declaring an external entity or
external DOCTYPE is rejected with a `DecodeError` and never resolved; only
an explicit `safeMode := false` lets such a body through, in which case the
external reference is resolved during decoding. -/
def parseXML (bytes : String) (opts : XMLParserOptions) :
    Except DecodeError XMLDoc :=
  if opts.safeMode && declaresExternalEntity bytes then
    Except.error ⟨"DecodeError", 400⟩
  else
    Except.ok ⟨bytes, declaresExternalEntity bytes && !opts.safeMode⟩

/-- C5: with default options (`safeMode := true`), decoding a markup body
that declares an external entity fails with a `DecodeError` and the entity
is never resolved; a successful decode of such a body is only possible
under an explicit `safeMode := false` configuration. -/
theorem xml_safe_default_spec (s : String)
    (h : declaresExternalEntity s = true) :
    ({} : XMLParserOptions).safeMode = true ∧
    parseXML s {} = Except.error ⟨"DecodeError", 400⟩ ∧
    (∀ doc : XMLDoc, ¬ parseXML s {} = Except.ok doc) ∧
    (∀ (opts : XMLParserOptions) (doc : XMLDoc),
      parseXML s opts = Except.ok doc → opts.safeMode = false) := by
  refine ⟨rfl, ?_, ?_, ?_⟩
  · unfold parseXML
    simp [h]
  · intro doc hdoc
    unfold parseXML at hdoc
    simp [h] at hdoc
  · intro opts doc hdoc
    unfold parseXML at hdoc
    cases hsafe : opts.safeMode with
    | false => rfl
    | true => rw [hsafe] at hdoc; simp [h] at hdoc

/-- Concrete instance of `xml_safe_default_spec`: a classical XXE payload is
rejected with a `DecodeError` under default options. -/
theorem xml_safe_default_spec_witness :
    declaresExternalEntity
        "<?xml version=\"1.0\"?><!DOCTYPE foo [<!ENTITY xxe SYSTEM \"file:///etc/passwd\">]><foo>&xxe;</foo>"
      = true ∧
    parseXML
        "<?xml version=\"1.0\"?><!DOCTYPE foo [<!ENTITY xxe SYSTEM \"file:///etc/passwd\">]><foo>&xxe;</foo>"
        {}
      = Except.error ⟨"DecodeError", 400⟩ := by
  refine ⟨by decide, ?_⟩
  exact (xml_safe_default_spec
    "<?xml version=\"1.0\"?><!DOCTYPE foo [<!ENTITY xxe SYSTEM \"file:///etc/passwd\">]><foo>&xxe;</foo>"
    (by decide)).2.1

/-- Modelled from the spec: the observable behaviour of one interceptor for
one request — invoke the continuation without an error, invoke it with an
error, emit a response directly, or emit a response and then (uselessly)
invoke the continuation. -/
inductive Action
| next
| nextErr (msg : String)
| respond (body : String)
| respondThenNext (body : String)
deriving DecidableEq, Repr

/-- A named interceptor with its behaviour; the name records execution in
the observation log. -/
structure Entry where
  name : String
  action : Action
deriving DecidableEq, Repr

/-- Modelled from the spec: the per-request pipeline state — the ordered
log of executed entries, the response flag and bytes, whether a
`ResponseAlreadySent` error was surfaced to logs, and whether the default
categorized failure response was emitted. -/
structure PipeState where
  log : List String
  sent : Bool
  sentBody : String
  alreadySentLogged : Bool
  defaultErrorSent : Bool
deriving DecidableEq, Repr

/-- Fresh per-request state. -/
def initState : PipeState := ⟨[], false, "", false, false⟩

/-- Modelled from the spec: the response-emission primitive. Emitting a
second response fails with `ResponseAlreadySent` (surfaced to logs, not to
the client) and does not alter the bytes already sent. -/
def emit (st : PipeState) (b : String) : PipeState :=
  if st.sent then { st with alreadySentLogged := true }
  else { st with sent := true, sentBody := b }

/-- Modelled from the spec: the error lane — the first registered
ErrorHandler executes exactly once; with none registered, the pipeline
emits a default categorized failure response. -/
def runError (ehs : List String) (st : PipeState) : PipeState :=
  match ehs with
  | [] => { emit st "default-error-response" with defaultErrorSent := true }
  | h :: _ => emit { st with log := st.log ++ [h] } "error-response"

/-- Modelled from the spec: strictly sequential execution of the entry
chain. Continuing advances to the next entry; continuing with an error
short-circuits to the error lane; a direct response terminates the chain,
and any subsequent continuation invocation is a no-op. -/
def runChain (ehs : List String) : List Entry → PipeState → PipeState
| [], st => st
| e :: rest, st =>
  match e.action with
  | Action.next => runChain ehs rest { st with log := st.log ++ [e.name] }
  | Action.nextErr _ => runError ehs { st with log := st.log ++ [e.name] }
  | Action.respond b => emit { st with log := st.log ++ [e.name] } b
  | Action.respondThenNext b => emit { st with log := st.log ++ [e.name] } b

/-- Modelled from the spec: segment-aligned prefix matching for path-scoped
interceptors — `/admin` matches `/admin/x` but not `/administrator`. -/
def segPrefixMatches (pfx p : String) : Bool :=
  (splitSlash pfx).isPrefixOf (splitSlash p)

/-- Modelled from the spec: pipeline assembly for one request — global
interceptors, then path-scoped interceptors whose prefix matches the
request path, then route-scoped interceptors, then the terminal handler. -/
def runPipeline (globals : List Entry) (pathScoped : List (String × Entry))
    (routeScoped : List Entry) (handler : Entry) (ehs : List String)
    (path : String) : PipeState :=
  runChain ehs
    (globals ++
      (pathScoped.filter (fun pe => segPrefixMatches pe.1 path)).map Prod.snd ++
      routeScoped ++ [handler]) initState

/-- Executing a block of continuation-invoking entries just appends their
names to the log, in order, and hands the rest of the chain the updated
state. -/
theorem runChain_all_next (ehs : List String) :
    ∀ (entries tail : List Entry) (st : PipeState),
    (∀ e ∈ entries, e.action = Action.next) →
    runChain ehs (entries ++ tail) st =
      runChain ehs tail { st with log := st.log ++ entries.map Entry.name } := by
  intro entries
  induction entries with
  | nil =>
    intro tail st _
    simp
  | cons e es ih =>
    intro tail st h
    have he : e.action = Action.next := h e (by simp)
    simp only [List.cons_append, runChain, he, List.append_eq]
    rw [ih tail _ (fun x hx => h x (by simp [hx]))]
    simp

/-- C3: for a request with no error signalled anywhere, the observed
execution order is exactly: all global interceptors, then all path-scoped
interceptors whose prefix matches, then all route-scoped interceptors, then
the terminal handler — each group in registration order — and exactly one
response is sent, by the handler. -/
theorem middleware_order_spec (globals : List Entry)
    (pathScoped : List (String × Entry)) (routeScoped : List Entry)
    (hname b : String) (ehs : List String) (path : String)
    (hg : ∀ e ∈ globals, e.action = Action.next)
    (hs : ∀ pe ∈ pathScoped, (Prod.snd pe).action = Action.next)
    (hr : ∀ e ∈ routeScoped, e.action = Action.next) :
    runPipeline globals pathScoped routeScoped ⟨hname, Action.respond b⟩ ehs path =
      { log := globals.map Entry.name ++
          ((pathScoped.filter (fun pe => segPrefixMatches pe.1 path)).map
            Prod.snd).map Entry.name ++
          routeScoped.map Entry.name ++ [hname],
        sent := true, sentBody := b, alreadySentLogged := false,
        defaultErrorSent := false } := by
  unfold runPipeline
  have hall : ∀ e ∈ globals ++
      (pathScoped.filter (fun pe => segPrefixMatches pe.1 path)).map Prod.snd ++
      routeScoped, e.action = Action.next := by
    intro e he
    rcases List.mem_append.mp he with he' | he'
    · rcases List.mem_append.mp he' with hg' | hs'
      · exact hg e hg'
      · rcases List.mem_map.mp hs' with ⟨pe, hpe, hpe2⟩
        rw [← hpe2]
        exact hs pe (List.mem_of_mem_filter hpe)
    · exact hr e he'
  rw [show globals ++
      (pathScoped.filter (fun pe => segPrefixMatches pe.1 path)).map Prod.snd ++
      routeScoped ++ [⟨hname, Action.respond b⟩] =
      (globals ++
        (pathScoped.filter (fun pe => segPrefixMatches pe.1 path)).map Prod.snd ++
        routeScoped) ++ [Entry.mk hname (Action.respond b)] by
    simp [List.append_assoc]]
  rw [runChain_all_next ehs _ _ initState hall]
  simp [runChain, emit, initState]

/-- Concrete instance of `middleware_order_spec`: globals [A,B], matching
path-scoped [C], route-scoped [D] and handler H run exactly in the order
A,B,C,D,H. -/
theorem middleware_order_spec_witness :
    runPipeline [⟨"A", Action.next⟩, ⟨"B", Action.next⟩]
      [("/admin", ⟨"C", Action.next⟩)] [⟨"D", Action.next⟩]
      ⟨"H", Action.respond "ok"⟩ [] "/admin/x" =
      { log := ["A", "B", "C", "D", "H"], sent := true, sentBody := "ok",
        alreadySentLogged := false, defaultErrorSent := false } := by
  exact (middleware_order_spec [⟨"A", Action.next⟩, ⟨"B", Action.next⟩]
    [("/admin", ⟨"C", Action.next⟩)] [⟨"D", Action.next⟩] "H" "ok" [] "/admin/x"
    (by decide) (by decide) (by decide)).trans (by decide)

/-- C4: when an interceptor invokes its continuation with an error, the
remaining non-error entries never execute; the first registered
ErrorHandler executes exactly once and sends the error response; with no
ErrorHandler registered, the pipeline emits the default categorized failure
response. -/
theorem error_short_circuit_spec (ehs : List String) (pre post : List Entry)
    (errE : Entry) (msg : String)
    (hpre : ∀ e ∈ pre, e.action = Action.next)
    (herr : errE.action = Action.nextErr msg) :
    (∀ eh rest, ehs = eh :: rest →
      runChain ehs (pre ++ errE :: post) initState =
        { log := pre.map Entry.name ++ [errE.name, eh], sent := true,
          sentBody := "error-response", alreadySentLogged := false,
          defaultErrorSent := false }) ∧
    (ehs = [] →
      runChain ehs (pre ++ errE :: post) initState =
        { log := pre.map Entry.name ++ [errE.name], sent := true,
          sentBody := "default-error-response", alreadySentLogged := false,
          defaultErrorSent := true }) := by
  constructor
  · intro eh rest hehs
    rw [runChain_all_next ehs pre (errE :: post) initState hpre]
    simp only [runChain, herr, hehs, runError, emit, initState]
    simp
  · intro hehs
    rw [runChain_all_next ehs pre (errE :: post) initState hpre]
    simp only [runChain, herr, hehs, runError, emit, initState]
    simp

/-- Concrete instance of `error_short_circuit_spec`: with globals A then B
where B signals an error, and chain remainder C, D, H, only A, B and the
first error handler E1 execute; with no error handler, the default failure
response is emitted after A, B. -/
theorem error_short_circuit_spec_witness :
    runChain ["E1", "E2"]
      [⟨"A", Action.next⟩, ⟨"B", Action.nextErr "boom"⟩, ⟨"C", Action.next⟩,
       ⟨"D", Action.next⟩, ⟨"H", Action.respond "ok"⟩] initState =
      { log := ["A", "B", "E1"], sent := true, sentBody := "error-response",
        alreadySentLogged := false, defaultErrorSent := false } ∧
    runChain []
      [⟨"A", Action.next⟩, ⟨"B", Action.nextErr "boom"⟩, ⟨"C", Action.next⟩,
       ⟨"D", Action.next⟩, ⟨"H", Action.respond "ok"⟩] initState =
      { log := ["A", "B"], sent := true,
        sentBody := "default-error-response", alreadySentLogged := false,
        defaultErrorSent := true } := by
  constructor
  · exact ((error_short_circuit_spec ["E1", "E2"] [⟨"A", Action.next⟩]
      [⟨"C", Action.next⟩, ⟨"D", Action.next⟩, ⟨"H", Action.respond "ok"⟩]
      ⟨"B", Action.nextErr "boom"⟩ "boom" (by decide) rfl).1 "E1" ["E2"]
      rfl).trans (by decide)
  · exact ((error_short_circuit_spec [] [⟨"A", Action.next⟩]
      [⟨"C", Action.next⟩, ⟨"D", Action.next⟩, ⟨"H", Action.respond "ok"⟩]
      ⟨"B", Action.nextErr "boom"⟩ "boom" (by decide) rfl).2 rfl).trans
      (by decide)

/-- C6: at most one response per request context — the second call of the
response-emission primitive fails with `ResponseAlreadySent` surfaced to
logs and leaves the already-sent bytes unchanged; and after an interceptor
emits a response directly, its continuation invocation is a no-op (the rest
of the chain never runs). -/
theorem double_response_guard_spec :
    (∀ (st : PipeState) (b : String), st.sent = true →
      emit st b = { st with alreadySentLogged := true } ∧
      (emit st b).sentBody = st.sentBody ∧ (emit st b).sent = true) ∧
    (∀ (ehs : List String) (nm b : String) (rest : List Entry)
       (st : PipeState),
      runChain ehs (⟨nm, Action.respondThenNext b⟩ :: rest) st =
        runChain ehs [⟨nm, Action.respondThenNext b⟩] st) := by
  constructor
  · intro st b hsent
    have he : emit st b = { st with alreadySentLogged := true } := by
      unfold emit; rw [if_pos hsent]
    exact ⟨he, by rw [he], by rw [he]; exact hsent⟩
  · intro ehs nm b rest st
    rfl

/-- Concrete instance of `double_response_guard_spec`: a second emission on
a context that already sent "hello" only sets the `ResponseAlreadySent`
log flag, and a respond-then-continue interceptor ignores the rest of the
chain. -/
theorem double_response_guard_spec_witness :
    emit ⟨["H"], true, "hello", false, false⟩ "again" =
      ⟨["H"], true, "hello", true, false⟩ ∧
    runChain [] [⟨"R", Action.respondThenNext "ok"⟩, ⟨"Z", Action.next⟩]
        initState =
      runChain [] [⟨"R", Action.respondThenNext "ok"⟩] initState := by
  constructor
  · exact ((double_response_guard_spec.1 ⟨["H"], true, "hello", false, false⟩
      "again" rfl).1).trans (by decide)
  · exact double_response_guard_spec.2 [] "R" "ok" [⟨"Z", Action.next⟩]
      initState

/-- JavaScript `String.prototype.toUpperCase` restricted to its effect on
ASCII letters, character by character (kernel-reducible). -/
def jsToUpper (s : String) : String :=
  String.mk (s.toList.map Char.toUpper)

/-- The `LOG_LEVELS` table of src/utils/logger.js:
DEBUG 0, INFO 1, WARN 2, ERROR 3, SILENT 4. -/
def LOG_LEVELS : List (String × Nat) :=
  [("DEBUG", 0), ("INFO", 1), ("WARN", 2), ("ERROR", 3), ("SILENT", 4)]

/-- The logger state relevant to emission decisions: the configured numeric
level threshold (colors and the message prefix only affect formatting). -/
structure Logger where
  level : Nat
deriving DecidableEq, Repr

/-- The `Logger` constructor's level computation:
`LOG_LEVELS[options.level?.toUpperCase()] ?? LOG_LEVELS.INFO` — an absent or
unknown level name falls back to INFO (1). -/
def mkLogger (optLevel : Option String) : Logger :=
  match optLevel with
  | some s => ⟨(LOG_LEVELS.lookup (jsToUpper s)).getD 1⟩
  | Option.none => ⟨1⟩

/-- Guard of `Logger.debug`: `this.level <= LOG_LEVELS.DEBUG`. -/
def Logger.emitsDebug (l : Logger) : Bool := decide (l.level ≤ 0)

/-- Guard of `Logger.info`: `this.level <= LOG_LEVELS.INFO`. -/
def Logger.emitsInfo (l : Logger) : Bool := decide (l.level ≤ 1)

/-- Guard of `Logger.warn`: `this.level <= LOG_LEVELS.WARN`. -/
def Logger.emitsWarn (l : Logger) : Bool := decide (l.level ≤ 2)

/-- Guard of `Logger.error`: `this.level <= LOG_LEVELS.ERROR`. -/
def Logger.emitsError (l : Logger) : Bool := decide (l.level ≤ 3)

/-- C9: each logging method emits output exactly when the configured level
threshold is at most the method's numeric level (DEBUG=0, INFO=1, WARN=2,
ERROR=3); the named configurations map to those numbers, absent or unknown
names default to INFO, and a logger configured with level SILENT never
emits from any of the four methods. -/
theorem logger_level_threshold_spec : ∀ (opt : Option String),
    ((mkLogger opt).emitsDebug = true ↔ (mkLogger opt).level ≤ 0) ∧
    ((mkLogger opt).emitsInfo = true ↔ (mkLogger opt).level ≤ 1) ∧
    ((mkLogger opt).emitsWarn = true ↔ (mkLogger opt).level ≤ 2) ∧
    ((mkLogger opt).emitsError = true ↔ (mkLogger opt).level ≤ 3) ∧
    (mkLogger (some "DEBUG")).level = 0 ∧
    (mkLogger (some "INFO")).level = 1 ∧
    (mkLogger (some "WARN")).level = 2 ∧
    (mkLogger (some "ERROR")).level = 3 ∧
    (mkLogger (some "silent")).level = 4 ∧
    (mkLogger Option.none).level = 1 ∧
    (mkLogger (some "SILENT")).emitsDebug = false ∧
    (mkLogger (some "SILENT")).emitsInfo = false ∧
    (mkLogger (some "SILENT")).emitsWarn = false ∧
    (mkLogger (some "SILENT")).emitsError = false := by
  intro opt
  refine ⟨?_, ?_, ?_, ?_, by decide, by decide, by decide, by decide,
    by decide, by decide, by decide, by decide, by decide, by decide⟩
  · simp [Logger.emitsDebug]
  · simp [Logger.emitsInfo]
  · simp [Logger.emitsWarn]
  · simp [Logger.emitsError]

/-- The paths created by `createProject` in bin/holoway.js, in creation
order: the project directory, its src tree, and the four generated files. -/
def createdPaths (cwd nm : String) : List String :=
  [cwd ++ "/" ++ nm,
   cwd ++ "/" ++ nm ++ "/src",
   cwd ++ "/" ++ nm ++ "/src/routes",
   cwd ++ "/" ++ nm ++ "/src/middleware",
   cwd ++ "/" ++ nm ++ "/package.json",
   cwd ++ "/" ++ nm ++ "/src/index.js",
   cwd ++ "/" ++ nm ++ "/.gitignore",
   cwd ++ "/" ++ nm ++ "/README.md"]

/-- The `createProject` command of bin/holoway.js over an abstract
filesystem (the list of existing paths): `fs.existsSync(projectPath)` is
checked before anything is created; if the directory exists the command
reports an error and exits with status 1, touching nothing; otherwise the
project directories and files are created. The returned number is the exit
status (`none` for normal completion). -/
def createProject (fsys : List String) (cwd nm : String) :
    List String × Option Nat :=
  if fsys.contains (cwd ++ "/" ++ nm) then (fsys, some 1)
  else (fsys ++ createdPaths cwd nm, Option.none)

/-- C10: when a directory named `<name>` already exists under the current
working directory, `create <name>` exits with non-zero status and the
filesystem is unchanged; when it does not exist, exactly the project
directories and files are created and the command completes normally. -/
theorem cli_create_guard_spec (fsys : List String) (cwd nm : String) :
    (fsys.contains (cwd ++ "/" ++ nm) = true →
      createProject fsys cwd nm = (fsys, some 1)) ∧
    (fsys.contains (cwd ++ "/" ++ nm) = false →
      createProject fsys cwd nm = (fsys ++ createdPaths cwd nm, Option.none)) := by
  constructor <;> intro h <;> unfold createProject <;> rw [h] <;> simp

/-- Concrete instance of `cli_create_guard_spec`: creating `my-api` under
`/home/user` fails with exit status 1 if `/home/user/my-api` exists and
changes nothing; on an empty filesystem it creates the project tree. -/
theorem cli_create_guard_spec_witness :
    createProject ["/home/user/my-api"] "/home/user" "my-api" =
      (["/home/user/my-api"], some 1) ∧
    createProject [] "/home/user" "my-api" =
      (createdPaths "/home/user" "my-api", Option.none) := by
  constructor
  · exact (cli_create_guard_spec ["/home/user/my-api"] "/home/user" "my-api").1
      (by decide)
  · exact ((cli_create_guard_spec [] "/home/user" "my-api").2
      (by decide)).trans (by decide)

end Newgate
